import Mathlib

/-!
Shallow embedding of the kiln-controller core (lib/oven.py and lib/kiln_db.py)
and verification of its specification claims.

Conventions of the embedding:
* Python floats are modelled by `ℚ` (the control math is exact field arithmetic).
* Fallible Python code (unhandled `TypeError` / `ZeroDivisionError`) is modelled
  with `Option`: a `none` result marks a spot where the Python function raises.
* Stateful methods become pure state-transformers `State → State × List DBEvent`,
  where the event list records the successful calls into the persistence layer
  (kiln_db).  The outcome of each underlying SQLite call is a parameter of type
  `Except Unit _`, so a theorem quantifying over it covers both the success and
  the raising behaviour of the collaborator.
-/

namespace Kiln

/-! ### Profile (lib/oven.py, class Profile)

`Profile.data` is the Python `sorted(obj["data"])` list of `(time, temperature)`
pairs. -/

abbrev Point := ℚ × ℚ

structure Profile where
  name : String
  data : List Point
deriving DecidableEq

/-- `get_duration`: Python `max([t for (t, x) in self.data])`.
Python raises `ValueError` on an empty list; profiles always carry points, and
the empty case is mapped to `0` here (never used under the theorems'
well-formedness hypotheses). -/
def Profile.get_duration (p : Profile) : ℚ :=
  match p.data with
  | [] => 0
  | q :: qs => (qs.map Prod.fst).foldl max q.1

/-- The scan of `get_surrounding_points` from index 1 on: find the first point
whose time is strictly greater than `time`; `prev` is the point before it. -/
def surrGo (time : ℚ) (prev : Point) : List Point → Option (Point × Point)
  | [] => none
  | q :: qs => if time < q.1 then some (prev, q) else surrGo time q qs

/-- `get_surrounding_points`: returns `none` exactly when Python returns
`(None, None)` — either `time > duration`, or the loop finishes with no break.
When the loop breaks at `i = 0` (i.e. `time < data[0][0]`), Python's
`data[i-1]` is `data[-1]`, the *last* point, which is modelled faithfully. -/
def Profile.get_surrounding_points (p : Profile) (time : ℚ) : Option (Point × Point) :=
  if time > p.get_duration then none
  else
    match p.data with
    | [] => none
    | p0 :: rest =>
      if time < p0.1 then (p0 :: rest).getLast?.map (fun lastPt => (lastPt, p0))
      else surrGo time p0 rest

/-- `get_target_temperature`.  A `none` result marks a Python crash: the
`(None, None)` case (`TypeError` on `None[1]`) and the zero-width segment case
(`ZeroDivisionError`). -/
def Profile.get_target_temperature (p : Profile) (time : ℚ) : Option ℚ :=
  if time > p.get_duration then some 0
  else
    match p.get_surrounding_points time with
    | none => none
    | some (prevPt, nextPt) =>
      if nextPt.1 = prevPt.1 then none
      else some (prevPt.2 + (time - prevPt.1) * ((nextPt.2 - prevPt.2) / (nextPt.1 - prevPt.1)))

/-- The loop body of `find_time_for_temperature` over the consecutive-point
pairs `(data[i-1], data[i])` for `i = 1 .. len-1`.  The call
`self.get_target_temperature(from_time)` inside the loop is modelled with
`.getD 0`; under the function's entry guard (`from_time < duration`) and the
theorems' well-formedness hypotheses the call never hits the `none` case. -/
def findLoop (p : Profile) (target_temp from_time : ℚ) : List (Point × Point) → Option ℚ
  | [] => none
  | (s, e) :: rest =>
    if e.1 ≤ from_time then findLoop p target_temp from_time rest
    else
      let segStartTime := if from_time > s.1 then from_time else s.1
      let segStartTemp := if from_time > s.1 then (p.get_target_temperature from_time).getD 0 else s.2
      if e.2 ≥ target_temp then
        if segStartTemp ≥ target_temp then some segStartTime
        else if e.2 - segStartTemp ≤ 0 then findLoop p target_temp from_time rest
        else some (segStartTime + ((target_temp - segStartTemp) / (e.2 - segStartTemp)) * (e.1 - segStartTime))
      else findLoop p target_temp from_time rest

/-- `find_time_for_temperature(target_temp, from_time)`. -/
def Profile.find_time_for_temperature (p : Profile) (target_temp : ℚ) (from_time : ℚ := 0) : Option ℚ :=
  if from_time ≥ p.get_duration then none
  else if (p.get_target_temperature from_time).getD 0 ≥ target_temp then some from_time
  else findLoop p target_temp from_time (p.data.zip p.data.tail)

/-! ### PID (lib/oven.py, class PID)

`compute` reads the wall clock to form `timeDelta`; the embedding passes
`timeDelta` explicitly.  The `pidstats` diagnostics dictionary is pure logging
output and is not modelled. -/

structure PIDState where
  kp : ℚ
  ki : ℚ
  kd : ℚ
  iterm : ℚ
  lastErr : ℚ
deriving DecidableEq

/-- `PID.compute(setpoint, ispoint)` with `config.pid_control_window = window`.
`sorted([-window_size, output, window_size])[1]` is the median of three, i.e.
a clamp to `[-100, 100]` (with `window_size = 100`). -/
def PID.compute (window : ℚ) (st : PIDState) (setpoint ispoint timeDelta : ℚ) : ℚ × PIDState :=
  let wsize : ℚ := 100
  let error := setpoint - ispoint
  let r :=
    if error < -1 * window then ((0 : ℚ), st.iterm)
    else if error > 1 * window then ((1 : ℚ), st.iterm)
    else
      let it := st.iterm + error * timeDelta * (1 / st.ki)
      let dErr := (error - st.lastErr) / timeDelta
      let raw := st.kp * error + it + st.kd * dErr
      let clamped := max (-1 * wsize) (min raw wsize)
      (clamped / wsize, it)
  let output := if r.1 < 0 then 0 else r.1
  (output, { st with iterm := r.2, lastErr := error })

/-! ### TempSensorReal.get_avg_temp (lib/oven.py)

`get_avg_temp(temps, chop=25)`; the running thread always calls it with the
default `chop`.  `int(total * 0.25)` on a list length is exactly `total * 25 / 100`
in natural-number division. -/

/-- The slice `temps[items : total - items]` of the sorted window that
`get_avg_temp` averages. -/
def trimmedWindow (temps : List ℚ) : List ℚ :=
  let s := temps.mergeSort (fun a b => a ≤ b)
  let total := s.length
  let items := total * 25 / 100
  (s.drop items).take (total - items - items)

/-- `get_avg_temp`: average of the trimmed sorted window. -/
def get_avg_temp (temps : List ℚ) : ℚ :=
  (trimmedWindow temps).sum / (trimmedWindow temps).length

/-! ### kiln_db.add_session_sample (lib/kiln_db.py)

The `session_samples` table has `PRIMARY KEY (session_id, t)`;
`add_session_sample` issues `INSERT OR REPLACE`, which deletes any row with the
same primary key and inserts the new one.  The table is modelled as a list of
rows; `t` is unix seconds as an integer, `state_json` the serialized state. -/

structure SampleRow where
  session_id : String
  t : ℤ
  state_json : String
deriving DecidableEq

/-- `add_session_sample(db, session_id, state, t)`: INSERT OR REPLACE keyed by
`(session_id, t)`. -/
def add_session_sample (tbl : List SampleRow) (sessionId : String) (t : ℤ) (stateJson : String) :
    List SampleRow :=
  tbl.filter (fun r => ¬(r.session_id = sessionId ∧ r.t = t)) ++ [⟨sessionId, t, stateJson⟩]

/-! ### Oven (lib/oven.py, class Oven)

The oven state holds exactly the in-memory fields that the claims touch, with
`datetime`/`time.time()` values modelled as rational seconds passed in as a
`now` parameter.  `config` is a structure; the three imported kiln_db functions
are "not None" iff `DBEnv.imported`, and each call's behaviour (return value or
raised exception) is a `DBEnv` field of `Except` type. -/

structure SensorFlags where
  noConnection : Bool
  shortToGround : Bool
  shortToVCC : Bool
  unknownError : Bool
deriving DecidableEq

structure Config where
  pid_kp : ℚ
  pid_ki : ℚ
  pid_kd : ℚ
  temp_scale : String
  sqlite_db_path : Option String
deriving DecidableEq

instance exceptDecEq {ε α : Type} [DecidableEq ε] [DecidableEq α] : DecidableEq (Except ε α) := by
  intro a b
  cases a <;> cases b
  case ok.ok x y =>
    exact if h : x = y then .isTrue (by rw [h]) else .isFalse (by simp [h])
  case error.error x y =>
    exact if h : x = y then .isTrue (by rw [h]) else .isFalse (by simp [h])
  case ok.error x y => exact .isFalse (by simp)
  case error.ok x y => exact .isFalse (by simp)

structure DBEnv where
  imported : Bool
  createResult : Except Unit String
  stopResult : Except Unit Bool
  addResult : Except Unit Unit
deriving DecidableEq

/-- Successful calls into the persistence layer, in order. -/
inductive DBEvent
  | createSession (sid profileName : String)
  | stopSession (sid outcome : String)
  | addSample (sid : String)
deriving DecidableEq

/-- The in-memory `Oven` fields the claims are about.  `active_session_id`
holds either `None` or a `create_session` uuid (never the empty string), so
Python's truthiness tests on it coincide with `Option`-ness; the cooldown
fields and caller-supplied session-id arguments go through `pyStr` where the
code tests their truthiness. -/
structure OvenSt where
  cost : ℚ
  state : String
  profile : Option Profile
  start_time : ℚ
  runtime : ℚ
  totaltime : ℚ
  target : ℚ
  heat : ℚ
  pid : PIDState
  wall_start_ts : Option ℚ
  startat : ℚ
  active_session_id : Option String
  cooldown_session_id : Option String
  cooldown_until_ts : Option ℚ
  cooldown_started_ts : Option ℚ
deriving DecidableEq

/-- Python string truthiness for optional string arguments: `None` and `""` are
both falsy. -/
def pyStr : Option String → Option String
  | some "" => none
  | s => s

/-- Python's `str.lower()` (character-wise lowercasing; scale strings are
ASCII). -/
def strLower (s : String) : String := ⟨s.data.map Char.toLower⟩

namespace Oven

/-- `Oven.reset`. -/
def reset (cfg : Config) (o : OvenSt) : OvenSt :=
  { o with
    cost := 0, state := "IDLE", profile := none, start_time := 0, runtime := 0,
    totaltime := 0, target := 0, heat := 0,
    pid := ⟨cfg.pid_kp, cfg.pid_ki, cfg.pid_kd, 0, 0⟩,
    wall_start_ts := none }

/-- `Oven._cancel_cooldown_capture`. -/
def cancelCooldownCapture (o : OvenSt) : OvenSt :=
  { o with cooldown_session_id := none, cooldown_until_ts := none, cooldown_started_ts := none }

/-- `Oven.stop_cooldown_capture(session_id=...)`.  The Python guard is
`if session_id and session_id != self._cooldown_session_id`, so an empty-string
argument is falsy and skips the mismatch check. -/
def stopCooldownCapture (o : OvenSt) (sessionId : Option String := none) : Bool × OvenSt :=
  match pyStr o.cooldown_session_id with
  | none => (false, o)
  | some sid =>
    match pyStr sessionId with
    | some s => if s ≠ sid then (false, o) else (true, cancelCooldownCapture o)
    | none => (true, cancelCooldownCapture o)

/-- `Oven._stop_session_if_possible(outcome=...)`.  The `try/except/finally`
catches every exception from `stop_session` and always clears
`_active_session_id`. -/
def stopSessionIfPossible (cfg : Config) (env : DBEnv) (o : OvenSt) (outcome : String) :
    OvenSt × List DBEvent :=
  match o.active_session_id with
  | none => (o, [])
  | some sid =>
    if ¬env.imported then ({ o with active_session_id := none }, [])
    else
      match cfg.sqlite_db_path with
      | none => ({ o with active_session_id := none }, [])
      | some _ =>
        match env.stopResult with
        | .ok _ => ({ o with active_session_id := none }, [.stopSession sid outcome])
        | .error _ => ({ o with active_session_id := none }, [])

/-- `Oven._start_session_if_possible`.  Exceptions from `create_session` are
caught and logged; the active pointer is set only on success. -/
def startSessionIfPossible (cfg : Config) (env : DBEnv) (o : OvenSt) : OvenSt × List DBEvent :=
  match o.profile with
  | none => (o, [])
  | some prof =>
    match o.active_session_id with
    | some _ => (o, [])
    | none =>
      if ¬env.imported then (o, [])
      else
        match cfg.sqlite_db_path with
        | none => (o, [])
        | some _ =>
          match env.createResult with
          | .ok sid => ({ o with active_session_id := some sid }, [.createSession sid prof.name])
          | .error _ => (o, [])

/-- `Oven._persist_sample_if_possible(session_id=..., state=...)`.  The method
never mutates oven state; it only (best-effort) writes one sample row, so it
returns just the event list.  Exceptions from `add_session_sample` are caught. -/
def persistSampleIfPossible (cfg : Config) (env : DBEnv) (o : OvenSt)
    (sessionId : Option String := none) : List DBEvent :=
  match (pyStr sessionId).orElse (fun _ => o.active_session_id) with
  | none => []
  | some sid =>
    if ¬env.imported then []
    else
      match cfg.sqlite_db_path with
      | none => []
      | some _ =>
        match env.addResult with
        | .ok _ => [.addSample sid]
        | .error _ => []

/-- `Oven._cooldown_capture_threshold`: `93.0 if scale == "c" else 200.0`,
after lowercasing `config.temp_scale` (missing or non-string scale defaults
to the `"f"` branch, i.e. 200). -/
def cooldownCaptureThreshold (cfg : Config) : ℚ :=
  if strLower cfg.temp_scale = "c" then 93 else 200

/-- `Oven._start_cooldown_capture(session_id=..., now_ts=...)`. -/
def startCooldownCapture (o : OvenSt) (sid : String) (now : ℚ) : OvenSt :=
  { o with
    cooldown_session_id := some sid,
    cooldown_until_ts := some (now + 48 * 60 * 60),
    cooldown_started_ts := some now }

/-- `Oven._cooldown_capture_tick`.  `temp` is the `temperature` entry of
`get_state()` (sensor temperature plus thermocouple offset) at this tick. -/
def cooldownCaptureTick (cfg : Config) (env : DBEnv) (o : OvenSt) (now temp : ℚ) :
    OvenSt × List DBEvent :=
  match pyStr o.cooldown_session_id, o.cooldown_until_ts with
  | some sid, some untilTs =>
    if now ≥ untilTs then (cancelCooldownCapture o, [])
    else
      let ev := persistSampleIfPossible cfg env o (some sid)
      if temp < cooldownCaptureThreshold cfg then (cancelCooldownCapture o, ev)
      else (o, ev)
  | _, _ => (o, [])

/-- `Oven.run_profile(profile, startat=...)`.  `now` is the wall-clock instant
of the call (`time.time()` and `datetime.now()` in seconds). -/
def runProfile (cfg : Config) (env : DBEnv) (flags : SensorFlags) (o : OvenSt)
    (prof : Profile) (startat now : ℚ) : OvenSt × List DBEvent :=
  let o1 := cancelCooldownCapture o
  let r1 := stopSessionIfPossible cfg env o1 "ABORTED"
  let o2 := reset cfg r1.1
  if flags.noConnection then (o2, r1.2)
  else if flags.shortToGround then (o2, r1.2)
  else if flags.shortToVCC then (o2, r1.2)
  else if flags.unknownError then (o2, r1.2)
  else
    let o3 :=
      { o2 with
        startat := startat * 60, runtime := startat * 60,
        start_time := now - startat * 60,
        wall_start_ts := some now,
        profile := some prof,
        totaltime := prof.get_duration,
        state := "RUNNING" }
    let r2 := startSessionIfPossible cfg env o3
    (r2.1, r1.2 ++ r2.2)

/-- `Oven.reset_if_schedule_ended`.  The direct `stop_session(..., outcome="COMPLETED")`
call is wrapped in `try/except`, so a raising persistence layer still lets the
rest of the method run.  `save_automatic_restart_state` is file I/O and is not
modelled. -/
def resetIfScheduleEnded (cfg : Config) (env : DBEnv) (o : OvenSt) (now : ℚ) :
    OvenSt × List DBEvent :=
  if o.runtime > o.totaltime then
    let ev :=
      match o.active_session_id, env.imported, cfg.sqlite_db_path with
      | some sid, true, some _ =>
        match env.stopResult with
        | .ok _ => [DBEvent.stopSession sid "COMPLETED"]
        | .error _ => []
      | _, _, _ => []
    let o1 :=
      match o.active_session_id with
      | some sid => startCooldownCapture o sid now
      | none => o
    let o2 := { o1 with active_session_id := none }
    (reset cfg o2, ev)
  else (o, [])

end Oven


/-! ## C5: the warmup-skip search `find_time_for_temperature`

Spec-side definitions for comparison: `segEval` is the straight line through
two control points (the very interpolation formula the code uses), and
`curveSpec` is the total idealized piecewise-linear schedule curve described in
§4.3/§8 of the spec ("ScheduleProfile.target_temperature": interpolation on
each segment, the control-point value at control points, 0 strictly beyond the
duration). -/

/-- Value at time `t` of the straight segment through `a` and `b`. -/
def segEval (a b : Point) (t : ℚ) : ℚ :=
  a.2 + (t - a.1) * ((b.2 - a.2) / (b.1 - a.1))

/-- The last control-point time of `a :: l`. -/
def lastTime (a : Point) : List Point → ℚ
  | [] => a.1
  | b :: rest => lastTime b rest

/-- The idealized piecewise-linear curve on the points `a :: l`, evaluated at
`t`: the active segment's interpolation, the last temperature past the end. -/
def curveAux (a : Point) : List Point → ℚ → ℚ
  | [], _ => a.2
  | b :: rest, t => if t < b.1 then segEval a b t else curveAux b rest t

/-- The spec's total schedule curve: piecewise-linear on the control points and
exactly 0 strictly beyond the duration. -/
def curveSpec (p : Profile) (t : ℚ) : ℚ :=
  match p.data with
  | [] => 0
  | a :: rest => if t > p.get_duration then 0 else curveAux a rest t

/-! ### Concrete fixtures used by claim counterexamples and witnesses -/

/-- The example profile `{(0,70),(60,100)}` used by the spec and the tests. -/
def demoProfile : Profile := ⟨"test_profile", [(0, 70), (60, 100)]⟩

/-- A config with Fahrenheit scale and a configured SQLite path. -/
def cfgF : Config := ⟨25, 200, 100, "f", some "kiln.db"⟩

/-- A config whose temperature scale is the non-`"c"`, non-Fahrenheit string
`"celsius"`. -/
def cfgCelsius : Config := ⟨25, 200, 100, "celsius", some "kiln.db"⟩

/-- A fully working persistence layer. -/
def envOk : DBEnv := ⟨true, Except.ok "new-sid", Except.ok true, Except.ok ()⟩

/-- An idle oven that is in the middle of a cooldown capture for session
`"s1"` (deadline far in the future). -/
def ovenWithCooldown : OvenSt :=
  { cost := 0, state := "IDLE", profile := none, start_time := 0, runtime := 0,
    totaltime := 0, target := 0, heat := 0, pid := ⟨25, 200, 100, 0, 0⟩,
    wall_start_ts := none, startat := 0, active_session_id := none,
    cooldown_session_id := some "s1", cooldown_until_ts := some 172800,
    cooldown_started_ts := some 0 }

/-- A running oven whose schedule time has passed the profile duration. -/
def ovenRunningDone : OvenSt :=
  { cost := 0, state := "RUNNING", profile := some demoProfile, start_time := 0, runtime := 61,
    totaltime := 60, target := 100, heat := 1, pid := ⟨25, 200, 100, 0, 0⟩,
    wall_start_ts := some 0, startat := 0, active_session_id := some "s1",
    cooldown_session_id := none, cooldown_until_ts := none, cooldown_started_ts := none }

/-- Sensor flags with the no-connection fault raised. -/
def faultFlags : SensorFlags := ⟨true, false, false, false⟩

/-! ## Claim theorems -/

/-- Claim C1: on profile `{(0,70),(60,100)}`, `get_target_temperature` returns
70 at 0, 85 at 30, and 0 at 61 — but at 60, the profile duration itself, the
scan for a point with `time < data[i][0]` never breaks, `get_surrounding_points`
returns `(None, None)` and the interpolation raises `TypeError` (modelled
`none`) instead of returning 100 as the claim states.  This is the evidence
theorem for the code bug at `time = duration`. -/
theorem c1_get_target_temperature_eval :
    demoProfile.get_target_temperature 0 = some 70 ∧
    demoProfile.get_target_temperature 30 = some 85 ∧
    demoProfile.get_target_temperature 60 = none ∧
    demoProfile.get_target_temperature 61 = some 0 := by
  refine ⟨?_, ?_, ?_, ?_⟩ <;>
    norm_num [demoProfile, Profile.get_target_temperature, Profile.get_surrounding_points,
      Profile.get_duration, surrGo, List.getLast?]

/-- One `add_session_sample` call leaves exactly the freshly written row under
its `(session_id, t)` primary key. -/
theorem filter_add_session_sample (tbl : List SampleRow) (sid : String) (t : ℤ) (s : String) :
    (add_session_sample tbl sid t s).filter (fun r => decide (r.session_id = sid ∧ r.t = t))
      = [⟨sid, t, s⟩] := by
  unfold add_session_sample
  rw [List.filter_append]
  have h1 : (tbl.filter fun r => decide ¬(r.session_id = sid ∧ r.t = t)).filter
      (fun r => decide (r.session_id = sid ∧ r.t = t)) = [] := by
    rw [List.filter_filter]
    apply List.filter_eq_nil_iff.mpr
    intro a _
    by_cases hk : a.session_id = sid ∧ a.t = t <;> simp [hk]
  rw [h1]
  simp

/-- Claim C9: for a fixed `(session_id, t)` key, folding any non-empty sequence
of `add_session_sample` writes over any starting table leaves exactly one row
for that key, holding the last write's state. -/
theorem c9_add_session_sample_last_write_wins (tbl : List SampleRow) (sid : String) (t : ℤ)
    (writes : List String) (hne : writes ≠ []) :
    (writes.foldl (fun tb s => add_session_sample tb sid t s) tbl).filter
        (fun r => decide (r.session_id = sid ∧ r.t = t))
      = [⟨sid, t, writes.getLast hne⟩] := by
  induction writes generalizing tbl with
  | nil => exact absurd rfl hne
  | cons w ws ih =>
    cases ws with
    | nil => simpa using filter_add_session_sample tbl sid t w
    | cons w2 ws2 =>
      rw [List.foldl_cons, ih (add_session_sample tbl sid t w) (List.cons_ne_nil w2 ws2)]
      rw [List.getLast_cons (List.cons_ne_nil w2 ws2)]

/-- Witness for C9 at a concrete table and write sequence. -/
theorem c9_add_session_sample_last_write_wins_witness :
    (["a", "b", "c"] : List String) ≠ [] ∧
    ((["a", "b", "c"] : List String).foldl
        (fun tb s => add_session_sample tb "sid" 7 s) []).filter
        (fun r => decide (r.session_id = "sid" ∧ r.t = 7))
      = [⟨"sid", 7, (["a", "b", "c"] : List String).getLast (by decide)⟩] :=
  ⟨by decide, c9_add_session_sample_last_write_wins [] "sid" 7 ["a", "b", "c"] (by decide)⟩

/-- Claim C10: for a non-empty window, `get_avg_temp` sorts, drops
`int(0.25 · len)` entries from each end, and averages a remainder that is
provably non-empty, so the division never divides by zero. -/
theorem c10_get_avg_temp_trimmed_mean (temps : List ℚ) (h : temps ≠ []) :
    trimmedWindow temps
      = ((temps.mergeSort (fun a b => a ≤ b)).drop (temps.length * 25 / 100)).take
          (temps.length - temps.length * 25 / 100 - temps.length * 25 / 100) ∧
    (trimmedWindow temps).length = temps.length - 2 * (temps.length * 25 / 100) ∧
    0 < (trimmedWindow temps).length ∧
    get_avg_temp temps = (trimmedWindow temps).sum / (trimmedWindow temps).length := by
  have hn : temps.length ≠ 0 := by
    intro h0
    exact h (List.length_eq_zero.mp h0)
  have hwin : trimmedWindow temps
      = ((temps.mergeSort (fun a b => a ≤ b)).drop (temps.length * 25 / 100)).take
          (temps.length - temps.length * 25 / 100 - temps.length * 25 / 100) := by
    simp only [trimmedWindow, List.length_mergeSort]
  have hlen : (trimmedWindow temps).length = temps.length - 2 * (temps.length * 25 / 100) := by
    rw [hwin, List.length_take, List.length_drop, List.length_mergeSort]
    omega
  refine ⟨hwin, hlen, ?_, rfl⟩
  rw [hlen]
  omega

/-- Witness for C10 on a concrete five-reading window. -/
theorem c10_get_avg_temp_trimmed_mean_witness :
    ([500, 480, 505, 490, 495] : List ℚ) ≠ [] ∧
    0 < (trimmedWindow [500, 480, 505, 490, 495]).length :=
  ⟨by decide, (c10_get_avg_temp_trimmed_mean [500, 480, 505, 490, 495] (by decide)).2.2.1⟩



/-- `if x < 0 then 0 else x` is `max 0 x`. -/
theorem if_neg_zero_eq_max (x : ℚ) : (if x < 0 then (0 : ℚ) else x) = max 0 x := by
  rcases le_or_lt 0 x with hx | hx
  · rw [if_neg (not_lt.mpr hx), max_eq_right hx]
  · rw [if_pos hx, max_eq_left hx.le]

/-- Claim C2: for a positive control window, `PID.compute` always returns a
duty fraction in `[0,1]`; below `-window` it returns exactly 0 and above
`+window` exactly 1, leaving the integral term untouched in both override
branches; inside the window it returns the raw PID value (with the freshly
accumulated integral term) clamped to `[-100,100]`, divided by 100 and floored
at 0. -/
theorem c2_pid_compute_output (window : ℚ) (st : PIDState) (setpoint ispoint dt : ℚ)
    (hwin : 0 < window) (hdt : 0 < dt) :
    (0 ≤ (PID.compute window st setpoint ispoint dt).1 ∧
      (PID.compute window st setpoint ispoint dt).1 ≤ 1) ∧
    (setpoint - ispoint < -window →
      (PID.compute window st setpoint ispoint dt).1 = 0 ∧
      (PID.compute window st setpoint ispoint dt).2.iterm = st.iterm) ∧
    (setpoint - ispoint > window →
      (PID.compute window st setpoint ispoint dt).1 = 1 ∧
      (PID.compute window st setpoint ispoint dt).2.iterm = st.iterm) ∧
    (-window ≤ setpoint - ispoint → setpoint - ispoint ≤ window →
      (PID.compute window st setpoint ispoint dt).2.iterm
          = st.iterm + (setpoint - ispoint) * dt * (1 / st.ki) ∧
      (PID.compute window st setpoint ispoint dt).1
          = max 0 (max (-100) (min (st.kp * (setpoint - ispoint)
              + (st.iterm + (setpoint - ispoint) * dt * (1 / st.ki))
              + st.kd * ((setpoint - ispoint - st.lastErr) / dt)) 100) / 100)) := by
  by_cases h1 : setpoint - ispoint < -window
  · have hc : PID.compute window st setpoint ispoint dt
        = (0, { st with iterm := st.iterm, lastErr := setpoint - ispoint }) := by
      simp [PID.compute, neg_one_mul, h1]
    rw [hc]
    refine ⟨⟨le_refl 0, by norm_num⟩, fun _ => ⟨rfl, rfl⟩, fun h2 => absurd h1 (by push_neg; linarith),
      fun h3 _ => absurd h1 (not_lt.mpr h3)⟩
  · by_cases h2 : setpoint - ispoint > window
    · have hc : PID.compute window st setpoint ispoint dt
          = (1, { st with iterm := st.iterm, lastErr := setpoint - ispoint }) := by
        simp [PID.compute, neg_one_mul, h1, h2]
      rw [hc]
      exact ⟨⟨by norm_num, le_refl 1⟩, fun hlt => absurd hlt h1, fun _ => ⟨rfl, rfl⟩,
        fun _ h4 => absurd h2 (not_lt.mpr h4)⟩
    · have hnot2 : ¬ window < setpoint - ispoint := h2
      have hraw : PID.compute window st setpoint ispoint dt
          = (max 0 (max (-100) (min (st.kp * (setpoint - ispoint)
              + (st.iterm + (setpoint - ispoint) * dt * (1 / st.ki))
              + st.kd * ((setpoint - ispoint - st.lastErr) / dt)) 100) / 100),
             { st with iterm := st.iterm + (setpoint - ispoint) * dt * (1 / st.ki),
                       lastErr := setpoint - ispoint }) := by
        simp [PID.compute, neg_one_mul, h1, hnot2, if_neg_zero_eq_max]
      rw [hraw]
      have hup : max (-100 : ℚ) (min (st.kp * (setpoint - ispoint)
          + (st.iterm + (setpoint - ispoint) * dt * (1 / st.ki))
          + st.kd * ((setpoint - ispoint - st.lastErr) / dt)) 100) ≤ 100 :=
        max_le (by norm_num) (min_le_right _ _)
      refine ⟨⟨le_max_left 0 _, ?_⟩, fun hlt => absurd hlt h1, fun hgt => absurd hgt h2,
        fun _ _ => ⟨rfl, rfl⟩⟩
      refine max_le (by norm_num) ?_
      rw [div_le_one (by norm_num : (0 : ℚ) < 100)]
      exact hup

/-- Witness for C2 at a concrete state and inputs. -/
theorem c2_pid_compute_output_witness :
    (0 : ℚ) < 10 ∧ (0 : ℚ) < 1 ∧
    (0 ≤ (PID.compute 10 ⟨2, 3, 4, 5, 6⟩ 107 100 1).1 ∧
      (PID.compute 10 ⟨2, 3, 4, 5, 6⟩ 107 100 1).1 ≤ 1) :=
  ⟨by norm_num, by norm_num,
    ((c2_pid_compute_output 10 ⟨2, 3, 4, 5, 6⟩ 107 100 1 (by norm_num) (by norm_num)).1)⟩



/-! ## Oven state-machine lemmas -/

theorem pyStr_none : pyStr none = none := rfl

theorem pyStr_some (s : String) (h : s ≠ "") : pyStr (some s) = some s := by
  unfold pyStr
  split
  · simp_all
  · rfl

theorem set_active_none_eq (o : OvenSt) (h : o.active_session_id = none) :
    { o with active_session_id := none } = o := by
  cases o
  simp_all

/-- `_stop_session_if_possible` always returns the state with the active
pointer cleared and nothing else changed, whatever the persistence layer did
(`finally` clause). -/
theorem stopSessionIfPossible_fst (cfg : Config) (env : DBEnv) (o : OvenSt) (outcome : String) :
    (Oven.stopSessionIfPossible cfg env o outcome).1 = { o with active_session_id := none } := by
  unfold Oven.stopSessionIfPossible
  cases h : o.active_session_id with
  | none => simp [set_active_none_eq o h]
  | some sid =>
    by_cases himp : env.imported
    · simp only [himp, not_true_eq_false, if_false]
      cases cfg.sqlite_db_path with
      | none => simp
      | some d => cases env.stopResult <;> simp
    · simp [himp]

/-- `_stop_session_if_possible` emits at most one event: the successful stop of
the previously active session with the requested outcome. -/
theorem stopSessionIfPossible_snd (cfg : Config) (env : DBEnv) (o : OvenSt) (outcome : String) :
    (Oven.stopSessionIfPossible cfg env o outcome).2 = [] ∨
      ∃ sid, o.active_session_id = some sid ∧
        (Oven.stopSessionIfPossible cfg env o outcome).2
          = [DBEvent.stopSession sid outcome] := by
  unfold Oven.stopSessionIfPossible
  cases h : o.active_session_id with
  | none => left; rfl
  | some sid =>
    by_cases himp : env.imported
    · simp only [himp, not_true_eq_false, if_false]
      cases cfg.sqlite_db_path with
      | none => left; simp
      | some d =>
        cases env.stopResult with
        | ok b => right; exact ⟨sid, rfl, by simp⟩
        | error e => left; simp
    · simp [himp]

/-- Claim C8: persistence failures never propagate.  `_stop_session_if_possible`
is a total state transformer that clears the in-memory active-session pointer
(and changes nothing else) for every behaviour of the underlying
`stop_session` call, including a raised exception; `_persist_sample_if_possible`
never changes oven state (it returns only its event list), and a raising
`add_session_sample` yields no event — the exception is absorbed at the call
site. -/
theorem c8_persistence_failures_contained (cfg : Config) (env : DBEnv) (o : OvenSt)
    (outcome : String) (sessionId : Option String) :
    (Oven.stopSessionIfPossible cfg env o outcome).1.active_session_id = none ∧
    (Oven.stopSessionIfPossible cfg env o outcome).1 = { o with active_session_id := none } ∧
    (env.stopResult = Except.error () →
      (Oven.stopSessionIfPossible cfg env o outcome).2 = []) ∧
    (env.addResult = Except.error () →
      Oven.persistSampleIfPossible cfg env o sessionId = []) := by
  refine ⟨?_, stopSessionIfPossible_fst cfg env o outcome, ?_, ?_⟩
  · rw [stopSessionIfPossible_fst]
  · intro herr
    unfold Oven.stopSessionIfPossible
    cases h : o.active_session_id with
    | none => rfl
    | some sid =>
      by_cases himp : env.imported
      · simp only [himp, not_true_eq_false, if_false]
        cases cfg.sqlite_db_path with
        | none => simp
        | some d => simp [herr]
      · simp [himp]
  · intro herr
    unfold Oven.persistSampleIfPossible
    cases h : (pyStr sessionId).orElse (fun _ => o.active_session_id) with
    | none => rfl
    | some sid =>
      by_cases himp : env.imported
      · simp only [himp, not_true_eq_false, if_false]
        cases cfg.sqlite_db_path with
        | none => simp
        | some d => simp [herr]
      · simp [himp]

/-- Witness for C8 with a persistence layer that raises on both calls. -/
theorem c8_persistence_failures_contained_witness :
    ((⟨true, Except.ok "x", Except.error (), Except.error ()⟩ : DBEnv).stopResult
        = Except.error () ∧
      (⟨true, Except.ok "x", Except.error (), Except.error ()⟩ : DBEnv).addResult
        = Except.error ()) ∧
    ((Oven.stopSessionIfPossible ⟨25, 200, 100, "f", some "kiln.db"⟩
        ⟨true, Except.ok "x", Except.error (), Except.error ()⟩
        { cost := 0, state := "RUNNING", profile := none, start_time := 0, runtime := 0,
          totaltime := 0, target := 0, heat := 0, pid := ⟨25, 200, 100, 0, 0⟩,
          wall_start_ts := none, startat := 0, active_session_id := some "s1",
          cooldown_session_id := none, cooldown_until_ts := none,
          cooldown_started_ts := none } "ABORTED").1.active_session_id = none ∧
      Oven.persistSampleIfPossible ⟨25, 200, 100, "f", some "kiln.db"⟩
        ⟨true, Except.ok "x", Except.error (), Except.error ()⟩
        { cost := 0, state := "RUNNING", profile := none, start_time := 0, runtime := 0,
          totaltime := 0, target := 0, heat := 0, pid := ⟨25, 200, 100, 0, 0⟩,
          wall_start_ts := none, startat := 0, active_session_id := some "s1",
          cooldown_session_id := none, cooldown_until_ts := none,
          cooldown_started_ts := none } none = []) :=
  ⟨⟨rfl, rfl⟩,
    (c8_persistence_failures_contained _ _ _ "ABORTED" none).1,
    (c8_persistence_failures_contained _ _ _ "ABORTED" none).2.2.2 rfl⟩



/-! ## C3 -/

/-- Claim C3 counterexample: with the no-connection fault set, `run_profile`
does leave the state `IDLE`, but it is not a no-op — it has already cancelled
the in-progress cooldown capture (session `"s1"`) before checking the fault
flags, an observable state change. -/
theorem c3_counterexample :
    faultFlags.noConnection = true ∧
    ovenWithCooldown.state = "IDLE" ∧
    ovenWithCooldown.cooldown_session_id = some "s1" ∧
    (Oven.runProfile cfgF envOk faultFlags ovenWithCooldown demoProfile 0 1000).1.state
      = "IDLE" ∧
    (Oven.runProfile cfgF envOk faultFlags ovenWithCooldown demoProfile 0 1000).1.cooldown_session_id
      = none := by
  decide

/-- Claim C3 (amended): when any sensor fault flag is set, `run_profile`
refuses to start the run — the resulting state is `IDLE` with no profile
installed, no new session created and fresh run bookkeeping; however the call
first cancels any in-progress cooldown capture and finalizes any prior active
session as `ABORTED` (so it is not a complete no-op).  The result is exactly
the reset of the cleaned-up previous state, and the only event possibly
emitted is that `ABORTED` stop. -/
theorem c3_fault_refuses_start (cfg : Config) (env : DBEnv) (flags : SensorFlags)
    (o : OvenSt) (prof : Profile) (startat now : ℚ)
    (hfault : flags.noConnection = true ∨ flags.shortToGround = true ∨
      flags.shortToVCC = true ∨ flags.unknownError = true) :
    (Oven.runProfile cfg env flags o prof startat now).1
        = Oven.reset cfg { Oven.cancelCooldownCapture o with active_session_id := none } ∧
    (Oven.runProfile cfg env flags o prof startat now).1.state = "IDLE" ∧
    (Oven.runProfile cfg env flags o prof startat now).1.profile = none ∧
    (Oven.runProfile cfg env flags o prof startat now).1.runtime = 0 ∧
    (Oven.runProfile cfg env flags o prof startat now).1.wall_start_ts = none ∧
    (Oven.runProfile cfg env flags o prof startat now).1.active_session_id = none ∧
    (Oven.runProfile cfg env flags o prof startat now).1.cooldown_session_id = none ∧
    ((Oven.runProfile cfg env flags o prof startat now).2 = [] ∨
      ∃ sid, o.active_session_id = some sid ∧
        (Oven.runProfile cfg env flags o prof startat now).2
          = [DBEvent.stopSession sid "ABORTED"]) := by
  have hstep : Oven.runProfile cfg env flags o prof startat now
      = (Oven.reset cfg { Oven.cancelCooldownCapture o with active_session_id := none },
         (Oven.stopSessionIfPossible cfg env (Oven.cancelCooldownCapture o) "ABORTED").2) := by
    unfold Oven.runProfile
    simp only []
    rw [stopSessionIfPossible_fst]
    by_cases hnc : flags.noConnection <;> by_cases hsg : flags.shortToGround <;>
      by_cases hsv : flags.shortToVCC <;> by_cases hue : flags.unknownError <;>
      simp_all
  rw [hstep]
  refine ⟨rfl, rfl, rfl, rfl, rfl, rfl, rfl, ?_⟩
  rcases stopSessionIfPossible_snd cfg env (Oven.cancelCooldownCapture o) "ABORTED" with h | ⟨sid, hsid, hev⟩
  · exact Or.inl h
  · exact Or.inr ⟨sid, hsid, hev⟩

/-- Witness for the amended C3 at a concrete faulty sensor. -/
theorem c3_fault_refuses_start_witness :
    (faultFlags.noConnection = true ∨ faultFlags.shortToGround = true ∨
      faultFlags.shortToVCC = true ∨ faultFlags.unknownError = true) ∧
    (Oven.runProfile cfgF envOk faultFlags ovenWithCooldown demoProfile 0 1000).1.state
        = "IDLE" ∧
    (Oven.runProfile cfgF envOk faultFlags ovenWithCooldown demoProfile 0 1000).1.profile
        = none :=
  ⟨Or.inl rfl,
    (c3_fault_refuses_start cfgF envOk faultFlags ovenWithCooldown demoProfile 0 1000
      (Or.inl rfl)).2.1,
    (c3_fault_refuses_start cfgF envOk faultFlags ovenWithCooldown demoProfile 0 1000
      (Or.inl rfl)).2.2.1⟩

/-! ## C4 -/

/-- Claim C4: when `runtime > totaltime` with an active session and a working
persistence layer, `reset_if_schedule_ended` finalizes that session as
`COMPLETED` (not `ABORTED`/`ERROR`), starts the cooldown capture carrying
exactly that session id (deadline now + 48h), clears the active-session
pointer, and returns the oven to `IDLE` with run bookkeeping reset. -/
theorem c4_completion_finalizes_and_starts_cooldown (cfg : Config) (env : DBEnv)
    (o : OvenSt) (now : ℚ) (sid : String) (dbp : String) (b : Bool)
    (hrun : o.runtime > o.totaltime)
    (hsid : o.active_session_id = some sid)
    (himp : env.imported = true)
    (hpath : cfg.sqlite_db_path = some dbp)
    (hok : env.stopResult = Except.ok b) :
    (Oven.resetIfScheduleEnded cfg env o now).2 = [DBEvent.stopSession sid "COMPLETED"] ∧
    (Oven.resetIfScheduleEnded cfg env o now).1.cooldown_session_id = some sid ∧
    (Oven.resetIfScheduleEnded cfg env o now).1.cooldown_until_ts
        = some (now + 48 * 60 * 60) ∧
    (Oven.resetIfScheduleEnded cfg env o now).1.cooldown_started_ts = some now ∧
    (Oven.resetIfScheduleEnded cfg env o now).1.active_session_id = none ∧
    (Oven.resetIfScheduleEnded cfg env o now).1.state = "IDLE" ∧
    (Oven.resetIfScheduleEnded cfg env o now).1.profile = none ∧
    (Oven.resetIfScheduleEnded cfg env o now).1.runtime = 0 ∧
    (Oven.resetIfScheduleEnded cfg env o now).1.totaltime = 0 ∧
    (Oven.resetIfScheduleEnded cfg env o now).1.target = 0 ∧
    (Oven.resetIfScheduleEnded cfg env o now).1.heat = 0 ∧
    (Oven.resetIfScheduleEnded cfg env o now).1.cost = 0 ∧
    (Oven.resetIfScheduleEnded cfg env o now).1.wall_start_ts = none := by
  have hred : Oven.resetIfScheduleEnded cfg env o now
      = (Oven.reset cfg
          { Oven.startCooldownCapture o sid now with active_session_id := none },
         [DBEvent.stopSession sid "COMPLETED"]) := by
    unfold Oven.resetIfScheduleEnded
    rw [if_pos hrun, hsid, himp, hpath, hok]
  rw [hred]
  exact ⟨rfl, rfl, rfl, rfl, rfl, rfl, rfl, rfl, rfl, rfl, rfl, rfl, rfl⟩

/-- Witness for C4 on a finished concrete run. -/
theorem c4_completion_finalizes_and_starts_cooldown_witness :
    ovenRunningDone.runtime > ovenRunningDone.totaltime ∧
    ovenRunningDone.active_session_id = some "s1" ∧
    (Oven.resetIfScheduleEnded cfgF envOk ovenRunningDone 1000).2
        = [DBEvent.stopSession "s1" "COMPLETED"] ∧
    (Oven.resetIfScheduleEnded cfgF envOk ovenRunningDone 1000).1.cooldown_session_id
        = some "s1" ∧
    (Oven.resetIfScheduleEnded cfgF envOk ovenRunningDone 1000).1.state = "IDLE" :=
  ⟨by decide, rfl,
    (c4_completion_finalizes_and_starts_cooldown cfgF envOk ovenRunningDone 1000 "s1"
      "kiln.db" true (by decide) rfl rfl rfl rfl).1,
    (c4_completion_finalizes_and_starts_cooldown cfgF envOk ovenRunningDone 1000 "s1"
      "kiln.db" true (by decide) rfl rfl rfl rfl).2.1,
    (c4_completion_finalizes_and_starts_cooldown cfgF envOk ovenRunningDone 1000 "s1"
      "kiln.db" true (by decide) rfl rfl rfl rfl).2.2.2.2.2.1⟩



/-! ## C6 -/

/-- Claim C6 counterexample: the code's threshold rule is "93 iff the
lowercased scale is exactly `"c"`, else 200", not "200 iff Fahrenheit, else
93".  With the non-Fahrenheit scale string `"celsius"` the threshold is 200,
so a tick at temperature 150 (which is ≥ 93, hence per the claim not yet
"cooled enough") cancels the capture. -/
theorem c6_counterexample :
    cfgCelsius.temp_scale = "celsius" ∧
    Oven.cooldownCaptureThreshold cfgCelsius = 200 ∧
    (150 : ℚ) ≥ 93 ∧
    ovenWithCooldown.cooldown_session_id = some "s1" ∧
    (Oven.cooldownCaptureTick cfgCelsius envOk ovenWithCooldown 10 150).1.cooldown_session_id
      = none := by
  decide

/-- Claim C6 (amended): on a cooldown-capture tick with an active capture:
past the 48-hour deadline the capture is cancelled and no sample is written;
otherwise exactly one sample is persisted for the captured session id, and if
the current temperature is below the cooled-enough threshold — 93 when the
lowercased configured scale is exactly `"c"`, else 200 (Fahrenheit included) —
that sample is the final one: the capture is cancelled, and a tick with no
active capture writes nothing. -/
theorem c6_cooldown_tick (cfg : Config) (env : DBEnv) (o : OvenSt) (now temp : ℚ)
    (sid : String) (untilTs : ℚ) (dbp : String)
    (hsid : o.cooldown_session_id = some sid) (hne : sid ≠ "")
    (hts : o.cooldown_until_ts = some untilTs)
    (himp : env.imported = true) (hpath : cfg.sqlite_db_path = some dbp)
    (hadd : env.addResult = Except.ok ()) :
    (strLower cfg.temp_scale = "c" → Oven.cooldownCaptureThreshold cfg = 93) ∧
    (strLower cfg.temp_scale ≠ "c" → Oven.cooldownCaptureThreshold cfg = 200) ∧
    (now ≥ untilTs →
      (Oven.cooldownCaptureTick cfg env o now temp).1 = Oven.cancelCooldownCapture o ∧
      (Oven.cooldownCaptureTick cfg env o now temp).2 = []) ∧
    (now < untilTs →
      (Oven.cooldownCaptureTick cfg env o now temp).2 = [DBEvent.addSample sid] ∧
      (temp < Oven.cooldownCaptureThreshold cfg →
        (Oven.cooldownCaptureTick cfg env o now temp).1 = Oven.cancelCooldownCapture o) ∧
      (temp ≥ Oven.cooldownCaptureThreshold cfg →
        (Oven.cooldownCaptureTick cfg env o now temp).1 = o)) ∧
    (∀ o2 : OvenSt, o2.cooldown_session_id = none →
      Oven.cooldownCaptureTick cfg env o2 now temp = (o2, [])) := by
  have hpersist : Oven.persistSampleIfPossible cfg env o (some sid) = [DBEvent.addSample sid] := by
    unfold Oven.persistSampleIfPossible
    rw [pyStr_some sid hne]
    simp [himp, hpath, hadd]
  refine ⟨?_, ?_, ?_, ?_, ?_⟩
  · intro hc; simp [Oven.cooldownCaptureThreshold, hc]
  · intro hc; simp [Oven.cooldownCaptureThreshold, hc]
  · intro hpast
    unfold Oven.cooldownCaptureTick
    rw [hsid, pyStr_some sid hne, hts]
    simp only []
    rw [if_pos hpast]
    exact ⟨rfl, rfl⟩
  · intro hfuture
    unfold Oven.cooldownCaptureTick
    rw [hsid, pyStr_some sid hne, hts]
    simp only []
    rw [if_neg (not_le.mpr hfuture), hpersist]
    refine ⟨?_, ?_, ?_⟩
    · by_cases hth : temp < Oven.cooldownCaptureThreshold cfg <;> simp [hth]
    · intro hth; rw [if_pos hth]
    · intro hth; rw [if_neg (not_lt.mpr hth)]
  · intro o2 h2
    unfold Oven.cooldownCaptureTick
    rw [h2, pyStr_none]

/-- Witness for the amended C6: Fahrenheit config, held at 500° one tick keeps
capturing; at 150° the next tick persists the final sample and stops. -/
theorem c6_cooldown_tick_witness :
    (ovenWithCooldown.cooldown_session_id = some "s1" ∧ ("s1" : String) ≠ "" ∧
      ovenWithCooldown.cooldown_until_ts = some 172800 ∧
      envOk.imported = true ∧ cfgF.sqlite_db_path = some "kiln.db" ∧
      envOk.addResult = Except.ok () ∧ (10 : ℚ) < 172800) ∧
    (Oven.cooldownCaptureTick cfgF envOk ovenWithCooldown 10 500).2
        = [DBEvent.addSample "s1"] ∧
    (Oven.cooldownCaptureTick cfgF envOk ovenWithCooldown 10 500).1 = ovenWithCooldown ∧
    (Oven.cooldownCaptureTick cfgF envOk ovenWithCooldown 10 150).1
        = Oven.cancelCooldownCapture ovenWithCooldown :=
  ⟨⟨rfl, by decide, rfl, rfl, rfl, rfl, by decide⟩,
    ((c6_cooldown_tick cfgF envOk ovenWithCooldown 10 500 "s1" 172800 "kiln.db"
        rfl (by decide) rfl rfl rfl rfl).2.2.2.1 (by decide)).1,
    ((c6_cooldown_tick cfgF envOk ovenWithCooldown 10 500 "s1" 172800 "kiln.db"
        rfl (by decide) rfl rfl rfl rfl).2.2.2.1 (by decide)).2.2 (by decide),
    ((c6_cooldown_tick cfgF envOk ovenWithCooldown 10 150 "s1" 172800 "kiln.db"
        rfl (by decide) rfl rfl rfl rfl).2.2.2.1 (by decide)).2.1 (by decide)⟩

/-! ## C7 -/

/-- Claim C7 counterexample: an empty-string session id is falsy in Python, so
`stop_cooldown_capture(session_id="")` skips the mismatch check: despite `""`
not matching the active capture `"s1"`, it returns `True` and clears the
capture, where the claim requires `False` and no change. -/
theorem c7_counterexample :
    ovenWithCooldown.cooldown_session_id = some "s1" ∧
    ("" : String) ≠ "s1" ∧
    (Oven.stopCooldownCapture ovenWithCooldown (some "")).1 = true ∧
    (Oven.stopCooldownCapture ovenWithCooldown (some "")).2.cooldown_session_id = none := by
  decide

/-- Claim C7 (amended): `stop_cooldown_capture` with a *non-empty* session id
different from the active capture's id, or with no capture active, returns
`False` and leaves the state unchanged; with the matching id, with no id, or
with an empty (hence falsy) id while a capture is active, it returns `True`
and immediately clears the captured session id, deadline and start
timestamp. -/
theorem c7_stop_cooldown_capture (o : OvenSt) (sid : String)
    (hsid : o.cooldown_session_id = some sid) (hne : sid ≠ "") :
    (∀ s, s ≠ "" → s ≠ sid → Oven.stopCooldownCapture o (some s) = (false, o)) ∧
    Oven.stopCooldownCapture o (some sid) = (true, Oven.cancelCooldownCapture o) ∧
    Oven.stopCooldownCapture o none = (true, Oven.cancelCooldownCapture o) ∧
    (Oven.cancelCooldownCapture o).cooldown_session_id = none ∧
    (Oven.cancelCooldownCapture o).cooldown_until_ts = none ∧
    (Oven.cancelCooldownCapture o).cooldown_started_ts = none ∧
    (∀ o2 : OvenSt, ∀ arg : Option String, o2.cooldown_session_id = none →
      Oven.stopCooldownCapture o2 arg = (false, o2)) := by
  refine ⟨?_, ?_, ?_, rfl, rfl, rfl, ?_⟩
  · intro s hsne hmis
    unfold Oven.stopCooldownCapture
    rw [hsid, pyStr_some sid hne, pyStr_some s hsne]
    simp only []
    rw [if_pos hmis]
  · unfold Oven.stopCooldownCapture
    rw [hsid, pyStr_some sid hne]
    simp only []
    rw [if_neg (fun h => h rfl)]
  · unfold Oven.stopCooldownCapture
    rw [hsid, pyStr_some sid hne]
    simp only []
    rw [pyStr_none]
  · intro o2 arg h2
    unfold Oven.stopCooldownCapture
    rw [h2, pyStr_none]

/-- Witness for the amended C7 on the concrete capturing oven. -/
theorem c7_stop_cooldown_capture_witness :
    (ovenWithCooldown.cooldown_session_id = some "s1" ∧ ("s1" : String) ≠ "" ∧
      ("s2" : String) ≠ "" ∧ ("s2" : String) ≠ "s1") ∧
    Oven.stopCooldownCapture ovenWithCooldown (some "s2") = (false, ovenWithCooldown) ∧
    Oven.stopCooldownCapture ovenWithCooldown (some "s1")
      = (true, Oven.cancelCooldownCapture ovenWithCooldown) :=
  ⟨⟨rfl, by decide, by decide, by decide⟩,
    (c7_stop_cooldown_capture ovenWithCooldown "s1" rfl (by decide)).1 "s2"
      (by decide) (by decide),
    (c7_stop_cooldown_capture ovenWithCooldown "s1" rfl (by decide)).2.1⟩



/-! ## C5 curve lemmas -/

theorem lastTime_cons (a b : Point) (l : List Point) :
    lastTime a (b :: l) = lastTime b l := rfl

theorem le_lastTime : ∀ (l : List Point) (a : Point),
    List.Chain' (fun x y : Point => x.1 < y.1) (a :: l) → a.1 ≤ lastTime a l := by
  intro l
  induction l with
  | nil => intro a _; exact le_refl _
  | cons b rest ih =>
    intro a hchain
    obtain ⟨hab, hchain'⟩ := List.chain'_cons.mp hchain
    exact le_of_lt (lt_of_lt_of_le hab (ih b hchain'))

theorem foldl_max_eq_lastTime : ∀ (l : List Point) (a : Point),
    List.Chain' (fun x y : Point => x.1 < y.1) (a :: l) →
    (l.map Prod.fst).foldl max a.1 = lastTime a l := by
  intro l
  induction l with
  | nil => intro a _; rfl
  | cons b rest ih =>
    intro a hchain
    obtain ⟨hab, hchain'⟩ := List.chain'_cons.mp hchain
    have : max a.1 b.1 = b.1 := max_eq_right (le_of_lt hab)
    simp only [List.map_cons, List.foldl_cons, this, lastTime_cons]
    exact ih b hchain'

theorem get_duration_eq_lastTime (p : Profile) (a : Point) (rest : List Point)
    (hdata : p.data = a :: rest)
    (hchain : p.data.Chain' (fun x y : Point => x.1 < y.1)) :
    p.get_duration = lastTime a rest := by
  rw [hdata] at hchain
  unfold Profile.get_duration
  rw [hdata]
  exact foldl_max_eq_lastTime rest a hchain

theorem curveAux_at_head (c : Point) (rest : List Point)
    (hchain : List.Chain' (fun x y : Point => x.1 < y.1) (c :: rest)) :
    curveAux c rest c.1 = c.2 := by
  cases rest with
  | nil => rfl
  | cons d ds =>
    obtain ⟨hcd, _⟩ := List.chain'_cons.mp hchain
    simp only [curveAux, if_pos hcd]
    simp [segEval]

theorem segEval_left (a b : Point) : segEval a b a.1 = a.2 := by
  simp [segEval]

theorem segEval_right (a b : Point) (hab : a.1 < b.1) : segEval a b b.1 = b.2 := by
  have h : b.1 - a.1 ≠ 0 := sub_ne_zero.mpr (ne_of_gt hab)
  field_simp [segEval]

theorem segEval_sub (a b : Point) (s t : ℚ) :
    segEval a b t - segEval a b s = (t - s) * ((b.2 - a.2) / (b.1 - a.1)) := by
  unfold segEval
  ring

theorem segEval_strictMono (a b : Point) (hab : a.1 < b.1) (hv : a.2 < b.2)
    {s t : ℚ} (hst : s < t) : segEval a b s < segEval a b t := by
  have hslope : 0 < (b.2 - a.2) / (b.1 - a.1) :=
    div_pos (by linarith) (by linarith)
  have hdiff := segEval_sub a b s t
  nlinarith

theorem slope_pos_of_segEval_lt (a b : Point) (hab : a.1 < b.1) {s t : ℚ} (hst : s < t)
    (hv : segEval a b s < segEval a b t) : a.2 < b.2 := by
  have hdiff := segEval_sub a b s t
  have hslope : 0 < (b.2 - a.2) / (b.1 - a.1) := by nlinarith
  rcases div_pos_iff.mp hslope with ⟨h1, _⟩ | ⟨_, h2⟩
  · linarith
  · linarith

theorem segEval_le_max (a b : Point) (hab : a.1 < b.1) {s : ℚ}
    (hs1 : a.1 ≤ s) (hs2 : s ≤ b.1) : segEval a b s ≤ max a.2 b.2 := by
  have hmu1 : 0 ≤ (s - a.1) / (b.1 - a.1) := div_nonneg (by linarith) (by linarith)
  have hmu2 : (s - a.1) / (b.1 - a.1) ≤ 1 := by
    rw [div_le_one (by linarith)]
    linarith
  have hval : segEval a b s = a.2 + ((s - a.1) / (b.1 - a.1)) * (b.2 - a.2) := by
    unfold segEval
    ring
  have ha2 : a.2 ≤ max a.2 b.2 := le_max_left _ _
  have hb2 : b.2 ≤ max a.2 b.2 := le_max_right _ _
  nlinarith [mul_nonneg hmu1 (sub_nonneg.mpr hb2), mul_nonneg (sub_nonneg.mpr hmu2) (sub_nonneg.mpr ha2)]

theorem segEval_reanchor (a b : Point) (x0 t : ℚ) (hab : a.1 < b.1) (hx : x0 < b.1) :
    segEval (x0, segEval a b x0) b t = segEval a b t := by
  have h1 : b.1 - a.1 ≠ 0 := sub_ne_zero.mpr (ne_of_gt hab)
  have h2 : b.1 - x0 ≠ 0 := sub_ne_zero.mpr (ne_of_gt hx)
  unfold segEval
  field_simp
  ring

theorem seg_crossing (a b : Point) (T : ℚ) (hab : a.1 < b.1) (hlow : a.2 < T)
    (hhigh : T ≤ b.2) :
    a.1 < a.1 + ((T - a.2) / (b.2 - a.2)) * (b.1 - a.1) ∧
    a.1 + ((T - a.2) / (b.2 - a.2)) * (b.1 - a.1) ≤ b.1 ∧
    segEval a b (a.1 + ((T - a.2) / (b.2 - a.2)) * (b.1 - a.1)) = T := by
  have hspan : 0 < b.2 - a.2 := by linarith
  have htime : 0 < b.1 - a.1 := by linarith
  have hfrac1 : 0 < (T - a.2) / (b.2 - a.2) := div_pos (by linarith) hspan
  have hfrac2 : (T - a.2) / (b.2 - a.2) ≤ 1 := by
    rw [div_le_one hspan]
    linarith
  refine ⟨by nlinarith, by nlinarith, ?_⟩
  have h1 : b.1 - a.1 ≠ 0 := ne_of_gt htime
  have h2 : b.2 - a.2 ≠ 0 := ne_of_gt hspan
  unfold segEval
  field_simp
  ring



/-- The scan `surrGo` finds the active segment: under strictly sorted times,
for `a.1 ≤ x < lastTime a l` it returns consecutive points `(u, v)` with
`u.1 ≤ x < v.1`, and the code's interpolation on `(u, v)` is the idealized
curve value. -/
theorem surrGo_spec : ∀ (l : List Point) (a : Point) (x : ℚ),
    List.Chain' (fun p q : Point => p.1 < q.1) (a :: l) →
    a.1 ≤ x → x < lastTime a l →
    ∃ u v, surrGo x a l = some (u, v) ∧ u.1 < v.1 ∧ u.1 ≤ x ∧ x < v.1 ∧
      segEval u v x = curveAux a l x := by
  intro l
  induction l with
  | nil =>
    intro a x _ hax hlt
    exact absurd hlt (not_lt.mpr hax)
  | cons b rest ih =>
    intro a x hchain hax hlt
    obtain ⟨hab, hchain'⟩ := List.chain'_cons.mp hchain
    by_cases hxb : x < b.1
    · refine ⟨a, b, ?_, hab, hax, hxb, ?_⟩
      · simp [surrGo, hxb]
      · simp only [curveAux, if_pos hxb]
    · have hbx : b.1 ≤ x := not_lt.mp hxb
      obtain ⟨u, v, hgo, huv, hux, hxv, hval⟩ :=
        ih b x hchain' hbx (by rw [lastTime_cons] at hlt; exact hlt)
      refine ⟨u, v, ?_, huv, hux, hxv, ?_⟩
      · simp [surrGo, hxb, hgo]
      · rw [hval]
        simp only [curveAux, if_neg hxb]

/-- Below the duration (and at or after the first control point),
`get_target_temperature` returns exactly the idealized curve value. -/
theorem target_temperature_eq_curveAux (p : Profile) (a : Point) (rest : List Point)
    (x : ℚ) (hdata : p.data = a :: rest)
    (hchain : p.data.Chain' (fun q r : Point => q.1 < r.1))
    (hx1 : a.1 ≤ x) (hx2 : x < p.get_duration) :
    p.get_target_temperature x = some (curveAux a rest x) := by
  have hdur := get_duration_eq_lastTime p a rest hdata hchain
  rw [hdata] at hchain
  have hlast : x < lastTime a rest := by rw [← hdur]; exact hx2
  obtain ⟨u, v, hgo, huv, hux, hxv, hval⟩ := surrGo_spec rest a x hchain hx1 hlast
  have hnotbeyond : ¬ x > p.get_duration := not_lt.mpr (le_of_lt hx2)
  have hsurr : p.get_surrounding_points x = some (u, v) := by
    unfold Profile.get_surrounding_points
    rw [if_neg hnotbeyond, hdata]
    simp only []
    rw [if_neg (not_lt.mpr hx1)]
    exact hgo
  unfold Profile.get_target_temperature
  rw [if_neg hnotbeyond, hsurr]
  simp only []
  rw [if_neg (by intro h; exact absurd h (ne_of_gt huv))]
  rw [← hval]
  rfl

/-- At or below the duration the spec curve is the idealized piecewise value. -/
theorem curveSpec_eq_curveAux (p : Profile) (a : Point) (rest : List Point) (x : ℚ)
    (hdata : p.data = a :: rest) (hx : x ≤ p.get_duration) :
    curveSpec p x = curveAux a rest x := by
  unfold curveSpec
  rw [hdata]
  simp only []
  rw [if_neg (not_lt.mpr hx)]



/-- Scan specification for the segments lying strictly after `from_time`:
starting at a point `b` past `from_time` with value below the target, the loop
returns exactly the earliest time at which the idealized curve reaches the
target, and `none` exactly when the remaining curve stays below it.  (On these
segments the loop's skip and mid-segment adjustments never fire, since every
remaining segment starts after `from_time`.) -/
theorem findLoop_tail_spec (p : Profile) (T ft : ℚ) :
    ∀ (l : List Point) (b : Point),
      List.Chain' (fun x y : Point => x.1 < y.1) (b :: l) →
      ft < b.1 → b.2 < T →
      (∀ t, findLoop p T ft ((b :: l).zip l) = some t →
        b.1 < t ∧ t ≤ lastTime b l ∧ curveAux b l t = T ∧
        ∀ s, b.1 ≤ s → s < t → curveAux b l s < T) ∧
      (findLoop p T ft ((b :: l).zip l) = none →
        ∀ s, b.1 ≤ s → s ≤ lastTime b l → curveAux b l s < T) := by
  intro l
  induction l with
  | nil =>
    intro b _ _ hv
    constructor
    · intro t ht
      simp [List.zip_nil_right, findLoop] at ht
    · intro _ s hs1 hs2
      have hs : s = b.1 := le_antisymm hs2 hs1
      rw [hs]
      exact hv
  | cons c rest ih =>
    intro b hchain hfb hv
    obtain ⟨hbc, hchain'⟩ := List.chain'_cons.mp hchain
    have hfc : ft < c.1 := lt_trans hfb hbc
    have hskip : ¬ (c.1 ≤ ft) := not_le.mpr hfc
    have hnoadj : ¬ (ft > b.1) := not_lt.mpr (le_of_lt hfb)
    have hred : findLoop p T ft ((b :: c :: rest).zip (c :: rest))
        = if c.2 ≥ T then
            if b.2 ≥ T then some b.1
            else if c.2 - b.2 ≤ 0 then findLoop p T ft ((c :: rest).zip rest)
            else some (b.1 + ((T - b.2) / (c.2 - b.2)) * (c.1 - b.1))
          else findLoop p T ft ((c :: rest).zip rest) := by
      simp only [List.zip_cons_cons, findLoop]
      rw [if_neg hskip]
      simp only [if_neg hnoadj]
      rfl
    rw [hred]
    by_cases hTc : c.2 ≥ T
    · have hbcv : b.2 < c.2 := lt_of_lt_of_le hv hTc
      have hnb : ¬ (b.2 ≥ T) := not_le.mpr hv
      have hspan : ¬ (c.2 - b.2 ≤ 0) := not_le.mpr (by linarith)
      rw [if_pos hTc, if_neg hnb, if_neg hspan]
      obtain ⟨htc1, htc2, htc3⟩ := seg_crossing b c T hbc hv hTc
      set tc := b.1 + ((T - b.2) / (c.2 - b.2)) * (c.1 - b.1) with htcdef
      constructor
      · intro t ht
        have htt : t = tc := (Option.some_inj.mp ht).symm
        subst htt
        refine ⟨htc1, le_trans htc2 (le_lastTime rest c hchain'), ?_, ?_⟩
        · rcases lt_or_eq_of_le htc2 with hlt | heq
          · simp only [curveAux, if_pos hlt]
            exact htc3
          · have hcT : c.2 = T := by
              rw [heq, segEval_right b c hbc] at htc3
              exact htc3
            simp only [curveAux]
            rw [heq, if_neg (lt_irrefl c.1), curveAux_at_head c rest hchain']
            exact hcT
        · intro s hs1 hs2
          have hsc : s < c.1 := lt_of_lt_of_le hs2 htc2
          simp only [curveAux, if_pos hsc]
          calc segEval b c s < segEval b c tc := segEval_strictMono b c hbc hbcv hs2
            _ = T := htc3
      · intro ht
        simp at ht
    · rw [if_neg hTc]
      have hvc : c.2 < T := not_le.mp hTc
      obtain ⟨ihsome, ihnone⟩ := ih c hchain' hfc hvc
      constructor
      · intro t ht
        obtain ⟨h1, h2, h3, h4⟩ := ihsome t ht
        refine ⟨lt_trans hbc h1, by rw [lastTime_cons]; exact h2, ?_, ?_⟩
        · simp only [curveAux, if_neg (not_lt.mpr (le_of_lt h1))]
          exact h3
        · intro s hs1 hs2
          by_cases hsc : s < c.1
          · simp only [curveAux, if_pos hsc]
            exact lt_of_le_of_lt (segEval_le_max b c hbc hs1 (le_of_lt hsc))
              (max_lt hv hvc)
          · simp only [curveAux, if_neg hsc]
            exact h4 s (not_lt.mp hsc) hs2
      · intro ht s hs1 hs2
        rw [lastTime_cons] at hs2
        by_cases hsc : s < c.1
        · simp only [curveAux, if_pos hsc]
          exact lt_of_le_of_lt (segEval_le_max b c hbc hs1 (le_of_lt hsc))
            (max_lt hv hvc)
        · simp only [curveAux, if_neg hsc]
          exact ihnone ht s (not_lt.mp hsc) hs2



/-- Scan specification for the segment containing `from_time` (the first
segment the loop does not skip): the loop behaves as if the segment started at
`(from_time, curve(from_time))` — Python's mid-segment adjustment — and
returns the earliest crossing from there on. -/
theorem first_segment_spec (p : Profile) (T ft : ℚ) (a b : Point) (bs : List Point)
    (hchain : List.Chain' (fun x y : Point => x.1 < y.1) (a :: b :: bs))
    (ha : a.1 ≤ ft) (hfb : ft < b.1)
    (hv : segEval a b ft < T)
    (hv0 : (p.get_target_temperature ft).getD 0 = segEval a b ft) :
    (∀ t, findLoop p T ft ((a :: b :: bs).zip (b :: bs)) = some t →
      ft < t ∧ t ≤ lastTime b bs ∧ curveAux a (b :: bs) t = T ∧
      ∀ s, ft ≤ s → s < t → curveAux a (b :: bs) s < T) ∧
    (findLoop p T ft ((a :: b :: bs).zip (b :: bs)) = none →
      ∀ s, ft ≤ s → s ≤ lastTime b bs → curveAux a (b :: bs) s < T) := by
  obtain ⟨hab, hchain'⟩ := List.chain'_cons.mp hchain
  have hskip : ¬ (b.1 ≤ ft) := not_le.mpr hfb
  have hre : ∀ t, segEval (ft, segEval a b ft) b t = segEval a b t := fun t =>
    segEval_reanchor a b ft t hab hfb
  have hred : findLoop p T ft ((a :: b :: bs).zip (b :: bs))
      = if b.2 ≥ T then
          if segEval a b ft ≥ T then some ft
          else if b.2 - segEval a b ft ≤ 0 then findLoop p T ft ((b :: bs).zip bs)
          else some (ft + ((T - segEval a b ft) / (b.2 - segEval a b ft)) * (b.1 - ft))
        else findLoop p T ft ((b :: bs).zip bs) := by
    by_cases hfa : ft > a.1
    · simp only [List.zip_cons_cons, findLoop]
      rw [if_neg hskip]
      simp only [if_pos hfa, hv0]
      rfl
    · have hfa' : a.1 = ft := le_antisymm ha (not_lt.mp hfa)
      have hva : a.2 = segEval a b ft := by
        rw [← hfa', segEval_left]
      simp only [List.zip_cons_cons, findLoop]
      rw [if_neg hskip]
      simp only [if_neg hfa]
      rw [← hfa', segEval_left a b]
      rfl
  rw [hred]
  by_cases hTb : b.2 ≥ T
  · have hnv0 : ¬ (segEval a b ft ≥ T) := not_le.mpr hv
    have hspan : ¬ (b.2 - segEval a b ft ≤ 0) := not_le.mpr (by linarith [lt_of_lt_of_le hv hTb])
    rw [if_pos hTb, if_neg hnv0, if_neg hspan]
    have hslope : a.2 < b.2 := by
      apply slope_pos_of_segEval_lt a b hab hfb
      rw [segEval_right a b hab]
      exact lt_of_lt_of_le hv hTb
    obtain ⟨htc1, htc2, htc3⟩ := seg_crossing (ft, segEval a b ft) b T hfb hv hTb
    rw [hre] at htc3
    set tc := ft + ((T - segEval a b ft) / (b.2 - segEval a b ft)) * (b.1 - ft) with htcdef
    constructor
    · intro t ht
      have htt : t = tc := (Option.some_inj.mp ht).symm
      subst htt
      refine ⟨htc1, le_trans htc2 (le_lastTime bs b hchain'), ?_, ?_⟩
      · rcases lt_or_eq_of_le htc2 with hlt | heq
        · simp only [curveAux, if_pos hlt]
          exact htc3
        · have hbT : b.2 = T := by
            rw [heq, segEval_right a b hab] at htc3
            exact htc3
          simp only [curveAux]
          rw [heq, if_neg (lt_irrefl b.1), curveAux_at_head b bs hchain']
          exact hbT
      · intro s hs1 hs2
        have hsb : s < b.1 := lt_of_lt_of_le hs2 htc2
        simp only [curveAux, if_pos hsb]
        calc segEval a b s < segEval a b tc := segEval_strictMono a b hab hslope hs2
          _ = T := htc3
    · intro ht
      simp at ht
  · rw [if_neg hTb]
    have hvb : b.2 < T := not_le.mp hTb
    obtain ⟨tailsome, tailnone⟩ := findLoop_tail_spec p T ft bs b hchain' hfb hvb
    have hbound : ∀ s, ft ≤ s → s ≤ b.1 → segEval a b s < T := by
      intro s hs1 hs2
      have := segEval_le_max (ft, segEval a b ft) b hfb hs1 hs2
      rw [hre] at this
      exact lt_of_le_of_lt this (max_lt hv hvb)
    constructor
    · intro t ht
      obtain ⟨h1, h2, h3, h4⟩ := tailsome t ht
      refine ⟨lt_trans hfb h1, h2, ?_, ?_⟩
      · simp only [curveAux, if_neg (not_lt.mpr (le_of_lt h1))]
        exact h3
      · intro s hs1 hs2
        by_cases hsb : s < b.1
        · simp only [curveAux, if_pos hsb]
          exact hbound s hs1 (le_of_lt hsb)
        · simp only [curveAux, if_neg hsb]
          exact h4 s (not_lt.mp hsb) hs2
    · intro ht s hs1 hs2
      by_cases hsb : s < b.1
      · simp only [curveAux, if_pos hsb]
        exact hbound s hs1 (le_of_lt hsb)
      · simp only [curveAux, if_neg hsb]
        exact tailnone ht s (not_lt.mp hsb) hs2

/-- Full scan specification from any point at or before `from_time`: skipping
the already-elapsed segments, the loop returns exactly the earliest time
`≥ from_time` at which the idealized curve reaches the target, or `none` when
the curve stays below the target through the end of the schedule. -/
theorem findLoop_skip_spec (p : Profile) (T ft : ℚ) :
    ∀ (l : List Point) (a : Point),
      List.Chain' (fun x y : Point => x.1 < y.1) (a :: l) →
      a.1 ≤ ft → ft < lastTime a l →
      curveAux a l ft < T →
      (p.get_target_temperature ft).getD 0 = curveAux a l ft →
      (∀ t, findLoop p T ft ((a :: l).zip l) = some t →
        ft < t ∧ t ≤ lastTime a l ∧ curveAux a l t = T ∧
        ∀ s, ft ≤ s → s < t → curveAux a l s < T) ∧
      (findLoop p T ft ((a :: l).zip l) = none →
        ∀ s, ft ≤ s → s ≤ lastTime a l → curveAux a l s < T) := by
  intro l
  induction l with
  | nil =>
    intro a _ ha hlt
    exact absurd hlt (not_lt.mpr ha)
  | cons b bs ih =>
    intro a hchain ha hlt hv hv0
    obtain ⟨hab, hchain'⟩ := List.chain'_cons.mp hchain
    by_cases hb : b.1 ≤ ft
    · have hstep : curveAux a (b :: bs) ft = curveAux b bs ft := by
        simp only [curveAux, if_neg (not_lt.mpr hb)]
      have hred : findLoop p T ft ((a :: b :: bs).zip (b :: bs))
          = findLoop p T ft ((b :: bs).zip bs) := by
        simp only [List.zip_cons_cons, findLoop]
        rw [if_pos hb]
        rfl
      rw [hred]
      rw [hstep] at hv hv0
      rw [lastTime_cons] at hlt
      obtain ⟨ihsome, ihnone⟩ := ih b hchain' hb hlt hv hv0
      constructor
      · intro t ht
        obtain ⟨h1, h2, h3, h4⟩ := ihsome t ht
        refine ⟨h1, by rw [lastTime_cons]; exact h2, ?_, ?_⟩
        · simp only [curveAux, if_neg (not_lt.mpr (le_trans hb (le_of_lt h1)))]
          exact h3
        · intro s hs1 hs2
          simp only [curveAux, if_neg (not_lt.mpr (le_trans hb hs1))]
          exact h4 s hs1 hs2
      · intro ht s hs1 hs2
        rw [lastTime_cons] at hs2
        simp only [curveAux, if_neg (not_lt.mpr (le_trans hb hs1))]
        exact ihnone ht s hs1 hs2
    · have hfb : ft < b.1 := not_le.mp hb
      have hcurve : curveAux a (b :: bs) ft = segEval a b ft := by
        simp only [curveAux, if_pos hfb]
      rw [hcurve] at hv hv0
      rw [lastTime_cons]
      exact first_segment_spec p T ft a b bs hchain ha hfb hv hv0



/-- Claim C5 counterexample: at `from_time = 61`, past the duration of
`{(0,70),(60,100)}`, the target curve value is 0, which is "at or above" the
target temperature 0 — yet `find_time_for_temperature(0, 61)` returns `None`,
not `from_time`, because the entry guard rejects every `from_time ≥ duration`
before consulting the curve. -/
theorem c5_counterexample :
    demoProfile.get_target_temperature 61 = some 0 ∧
    ((0 : ℚ) ≤ 0) ∧
    demoProfile.find_time_for_temperature 0 61 = none := by
  decide

/-- Claim C5 (amended): for a strictly time-sorted profile evaluated at or
after its first control point, `find_time_for_temperature(T, from_time)`
returns `None` whenever `from_time ≥ duration`; for `from_time` strictly
before the duration it returns `from_time` itself when the target curve at
`from_time` is already at or above `T` (second conjunct: below the duration
the code curve `get_target_temperature` and the idealized piecewise-linear
curve `curveSpec` agree), and otherwise it returns exactly the earliest time
`t > from_time` at which the idealized curve reaches `T` — found by linear
interpolation inside the first rising segment whose end value is ≥ `T`, with
the curve strictly below `T` everywhere on `[from_time, t)` — and returns
`None` precisely when the curve stays below `T` through the end of the
schedule (falling or flat segments never produce a result). -/
theorem c5_find_time_for_temperature_spec (p : Profile) (T ft : ℚ) (a : Point)
    (rest : List Point)
    (hdata : p.data = a :: rest)
    (hchain : p.data.Chain' (fun x y : Point => x.1 < y.1))
    (ha : a.1 ≤ ft) :
    (ft ≥ p.get_duration → p.find_time_for_temperature T ft = none) ∧
    (∀ s, ft ≤ s → s < p.get_duration →
      p.get_target_temperature s = some (curveSpec p s)) ∧
    (ft < p.get_duration → T ≤ curveSpec p ft →
      p.find_time_for_temperature T ft = some ft) ∧
    (ft < p.get_duration → curveSpec p ft < T →
      (∀ t, p.find_time_for_temperature T ft = some t →
        ft < t ∧ t ≤ p.get_duration ∧ curveSpec p t = T ∧
        ∀ s, ft ≤ s → s < t → curveSpec p s < T) ∧
      (p.find_time_for_temperature T ft = none →
        ∀ s, ft ≤ s → s ≤ p.get_duration → curveSpec p s < T)) := by
  have hchain2 : List.Chain' (fun x y : Point => x.1 < y.1) (a :: rest) := by
    rw [hdata] at hchain
    exact hchain
  have hdur := get_duration_eq_lastTime p a rest hdata hchain
  refine ⟨?_, ?_, ?_, ?_⟩
  · intro hge
    unfold Profile.find_time_for_temperature
    rw [if_pos hge]
  · intro s hs1 hs2
    rw [curveSpec_eq_curveAux p a rest s hdata (le_of_lt hs2)]
    exact target_temperature_eq_curveAux p a rest s hdata hchain (le_trans ha hs1) hs2
  · intro hlt hTle
    have htt := target_temperature_eq_curveAux p a rest ft hdata hchain ha hlt
    have hcs := curveSpec_eq_curveAux p a rest ft hdata (le_of_lt hlt)
    rw [hcs] at hTle
    unfold Profile.find_time_for_temperature
    rw [if_neg (not_le.mpr hlt), htt]
    rw [if_pos (by simpa using hTle)]
  · intro hlt hvlt
    have htt := target_temperature_eq_curveAux p a rest ft hdata hchain ha hlt
    have hcs := curveSpec_eq_curveAux p a rest ft hdata (le_of_lt hlt)
    have hv : curveAux a rest ft < T := by
      rw [← hcs]
      exact hvlt
    have hv0 : (p.get_target_temperature ft).getD 0 = curveAux a rest ft := by
      rw [htt]
      rfl
    have hltlast : ft < lastTime a rest := by
      rw [← hdur]
      exact hlt
    obtain ⟨hsome, hnone⟩ := findLoop_skip_spec p T ft rest a hchain2 ha hltlast hv hv0
    have hred : p.find_time_for_temperature T ft
        = findLoop p T ft ((a :: rest).zip rest) := by
      unfold Profile.find_time_for_temperature
      rw [if_neg (not_le.mpr hlt), hv0, if_neg (not_le.mpr hv), hdata]
      rfl
    constructor
    · intro t ht
      rw [hred] at ht
      obtain ⟨h1, h2, h3, h4⟩ := hsome t ht
      have htd : t ≤ p.get_duration := by
        rw [hdur]
        exact h2
      refine ⟨h1, htd, ?_, ?_⟩
      · rw [curveSpec_eq_curveAux p a rest t hdata htd]
        exact h3
      · intro s hs1 hs2
        rw [curveSpec_eq_curveAux p a rest s hdata (le_trans (le_of_lt hs2) htd)]
        exact h4 s hs1 hs2
    · intro ht s hs1 hs2
      rw [hred] at ht
      rw [curveSpec_eq_curveAux p a rest s hdata hs2]
      apply hnone ht s hs1
      rw [← hdur]
      exact hs2

/-- Witness for the amended C5 on the profile `{(0,70),(60,100)}` at
`from_time = 30`, target 85. -/
theorem c5_find_time_for_temperature_spec_witness :
    (demoProfile.data = [((0 : ℚ), (70 : ℚ)), (60, 100)] ∧
      demoProfile.data.Chain' (fun x y : Point => x.1 < y.1) ∧
      (((0 : ℚ), (70 : ℚ)) : Point).1 ≤ (30 : ℚ)) ∧
    ((30 : ℚ) ≥ demoProfile.get_duration →
      demoProfile.find_time_for_temperature 85 30 = none) ∧
    (∀ s, (30 : ℚ) ≤ s → s < demoProfile.get_duration →
      demoProfile.get_target_temperature s = some (curveSpec demoProfile s)) ∧
    ((30 : ℚ) < demoProfile.get_duration → (85 : ℚ) ≤ curveSpec demoProfile 30 →
      demoProfile.find_time_for_temperature 85 30 = some 30) ∧
    ((30 : ℚ) < demoProfile.get_duration → curveSpec demoProfile 30 < 85 →
      (∀ t, demoProfile.find_time_for_temperature 85 30 = some t →
        (30 : ℚ) < t ∧ t ≤ demoProfile.get_duration ∧ curveSpec demoProfile t = 85 ∧
        ∀ s, (30 : ℚ) ≤ s → s < t → curveSpec demoProfile s < 85) ∧
      (demoProfile.find_time_for_temperature 85 30 = none →
        ∀ s, (30 : ℚ) ≤ s → s ≤ demoProfile.get_duration → curveSpec demoProfile s < 85)) :=
  ⟨⟨rfl, List.chain'_cons.mpr ⟨by decide, List.chain'_singleton _⟩, by decide⟩,
    c5_find_time_for_temperature_spec demoProfile 85 30 ((0 : ℚ), (70 : ℚ))
      [((60 : ℚ), (100 : ℚ))] rfl
      (List.chain'_cons.mpr ⟨by decide, List.chain'_singleton _⟩) (by decide)⟩


end Kiln
